import Mathlib

/-!
# Verification of the AXI interconnect registry/validation/derivation core

Shallow embedding of `src/verilog_axi/axi/axi_interconnect.py`
(class `AXIInterconnect`): port registration (`add_slave` / `add_master`),
parameter consistency checking (`get_check_parameters`), region parameter
derivation (`format_m_params` and the `do_finalize` fragment computing
`m_origins` / `m_widths`), and the `Cat` concatenation used to pack
per-port channel fields into single wide vectors.

Conventions of the embedding:
* Python `dict` (insertion ordered) becomes an association list
  `List (String × _)`; `{**a, **b}` becomes `dictMerge`.
* A migen `Signal` is a pair (bit width, value); a migen `Constant` is a
  pair (value, bit width).
* Exceptions become an error type `IcError` whose constructors name each
  failure site with the specification's taxonomy: the bare `ValueError` of
  a duplicate-name registration is `duplicateName`; the `AssertionError` of
  a missing origin/size is `missingRegion`; the `IndexError` of `axis[0]`
  on an empty registry is `emptyRegistry`; the `AXIError` raised after
  logging a mismatch is `consistency` (carrying the property and the index
  of the offending port in the slaves-then-masters order, the port the
  code identifies by name in its log record); the `ValueError` of
  `math.log2(size)` for `size <= 0` is `invalidRegion`; the `TypeError` of
  arithmetic on a `None` origin/size (unreachable for ports registered
  through `add_master`, which asserts both present) is `typeNone`.
* Methods that mutate `self` take and return the object state explicitly;
  a method that can raise returns the error alongside the state as it is
  when the exception escapes (Python does not roll back mutations).
-/

/-- A migen `Signal`: a named wire bundle reduced to its bit width and the
value it carries; a hardware signal of width `w` holds values below `2 ^ w`. -/
structure Signal where
  width : Nat
  value : Nat
deriving DecidableEq

/-- A migen `Constant(value, bits)`. -/
structure Constant where
  value : Nat
  nbits : Nat
deriving DecidableEq

/-- The parts of a LiteX `AXIInterface` this module reads: the clock domain,
`aw.addr` (its length is the address width), `w.data` (its length is the data
width) and `aw.id` (its length is the ID width). -/
structure AXIInterface where
  clock_domain : String
  aw_addr : Signal
  w_data : Signal
  aw_id : Signal
deriving DecidableEq

/-- `AXIInterconnectInterface`: a registered port, wrapping the interface
with the optional address region (`origin`, `size`); both are `None` for
slave ports and asserted present for master ports. -/
structure AXIInterconnectInterface where
  axi : AXIInterface
  origin : Option Nat := none
  size : Option Int := none
deriving DecidableEq

/-- The state of an `AXIInterconnect` object: the two ordered name → port
mappings plus the derived-parameter attributes that `get_check_parameters`
assigns on `self` (absent before the first call, hence `Option`). -/
structure AXIInterconnect where
  s_axis : List (String × AXIInterconnectInterface)
  m_axis : List (String × AXIInterconnectInterface)
  clock_domain : Option String := none
  address_width : Option Nat := none
  data_width : Option Nat := none
  id_width : Option Nat := none
deriving DecidableEq

/-- The consistency properties checked across all ports. -/
inductive ConsistencyProperty where
  | clock_domain
  | address_width
  | data_width
deriving DecidableEq

/-- Error taxonomy; see the module docstring for the mapping from Python
exceptions to constructors. -/
inductive IcError where
  | duplicateName
  | missingRegion
  | emptyRegistry
  | consistency (property : ConsistencyProperty) (index : Nat)
  | invalidRegion
  | typeNone
deriving DecidableEq

/-- The global parameters derived by `get_check_parameters`. -/
structure GlobalParameters where
  clock_domain : String
  address_width : Nat
  data_width : Nat
  id_width : Nat
deriving DecidableEq

/-- Insertion into a Python `dict` viewed as an ordered association list: a
present key keeps its position and gets the new value, a fresh key is
appended. -/
def dictInsert {α : Type} (d : List (String × α)) (k : String) (v : α) :
    List (String × α) :=
  if k ∈ d.map Prod.fst then
    d.map (fun p => if p.1 = k then (p.1, v) else p)
  else
    d ++ [(k, v)]

/-- Python's `{**a, **b}`: start from `a` and insert every binding of `b`
in order. -/
def dictMerge {α : Type} (a b : List (String × α)) : List (String × α) :=
  b.foldl (fun d p => dictInsert d p.1 p.2) a

/-- The comparison loop of `get_check_parameters`: walk the projected
values with their enumeration index and return the index of the first one
that differs from the reference (the loop's `continue` at index 0 is
equivalent to testing it, because the reference is the value at index 0). -/
def firstMismatchAux {α : Type} [DecidableEq α] (ref : α) :
    List α → Nat → Option Nat
  | [], _ => none
  | v :: rest, i =>
    if v ≠ ref then some i else firstMismatchAux ref rest (i + 1)

/-- Index of the first element of `vals` that differs from `ref`. -/
def firstMismatch {α : Type} [DecidableEq α] (vals : List α) (ref : α) :
    Option Nat :=
  firstMismatchAux ref vals 0

/-- `AXIInterconnect.get_check_parameters(show)`: merge the two mappings
(slaves then masters), take the first port as reference, and for each of
clock domain / address width / data width in that order assign the derived
attribute on `self` and fail on the first differing port.  The ID width is
taken from the first port without any cross-check (`# FIXME: Add check.`).
Returns the check's outcome together with the object state when the call
returns or the exception escapes.  The `show` flag only selects logging,
which is not modelled. -/
def get_check_parameters (ic : AXIInterconnect) (show' : Bool) :
    Except IcError GlobalParameters × AXIInterconnect :=
  match (dictMerge ic.s_axis ic.m_axis).map (fun p => p.2.axi) with
  | [] => (Except.error IcError.emptyRegistry, ic)
  | a0 :: rest =>
    let axis := a0 :: rest
    let clock_domain := a0.clock_domain
    let ic1 := { ic with clock_domain := some clock_domain }
    match firstMismatch (axis.map AXIInterface.clock_domain) clock_domain with
    | some i =>
      (Except.error (IcError.consistency ConsistencyProperty.clock_domain i), ic1)
    | none =>
      let address_width := a0.aw_addr.width
      let ic2 := { ic1 with address_width := some address_width }
      match firstMismatch (axis.map (fun a => a.aw_addr.width)) address_width with
      | some i =>
        (Except.error (IcError.consistency ConsistencyProperty.address_width i), ic2)
      | none =>
        let data_width := a0.w_data.width
        let ic3 := { ic2 with data_width := some data_width }
        match firstMismatch (axis.map (fun a => a.w_data.width)) data_width with
        | some i =>
          (Except.error (IcError.consistency ConsistencyProperty.data_width i), ic3)
        | none =>
          let id_width := a0.aw_id.width
          let ic4 := { ic3 with id_width := some id_width }
          (Except.ok
            { clock_domain := clock_domain
              address_width := address_width
              data_width := data_width
              id_width := id_width }, ic4)

/-- The freshly constructed interconnect: `self.s_axis = {}`,
`self.m_axis = {}`, no derived attributes assigned yet. -/
def empty_interconnect : AXIInterconnect :=
  { s_axis := [], m_axis := [] }

/-- `AXIInterconnect.add_slave`: default name `"s_axi" + str(len(s_axis))`,
`ValueError` on a duplicate name (raised before any mutation), then append
the wrapped port to `s_axis` and run `get_check_parameters(show=False)`;
a consistency failure escapes after the mutation. -/
def add_slave (ic : AXIInterconnect) (name? : Option String)
    (s_axi : AXIInterface) : Option IcError × AXIInterconnect :=
  let name := match name? with
    | none => "s_axi" ++ toString ic.s_axis.length
    | some n => n
  if name ∈ ic.s_axis.map Prod.fst then
    (some IcError.duplicateName, ic)
  else
    let ic1 := { ic with
      s_axis := ic.s_axis ++ [(name, { axi := s_axi })] }
    let r := get_check_parameters ic1 false
    match r.1 with
    | Except.error e => (some e, r.2)
    | Except.ok _ => (none, r.2)

/-- `AXIInterconnect.add_master`: default name `"m_axi" + str(len(m_axis))`,
`ValueError` on a duplicate name, assertions that `origin` and `size` are
present, then append to `m_axis` and run `get_check_parameters(show=False)`. -/
def add_master (ic : AXIInterconnect) (name? : Option String)
    (m_axi : AXIInterface) (origin : Option Nat) (size : Option Int) :
    Option IcError × AXIInterconnect :=
  let name := match name? with
    | none => "m_axi" ++ toString ic.m_axis.length
    | some n => n
  if name ∈ ic.m_axis.map Prod.fst then
    (some IcError.duplicateName, ic)
  else if origin.isNone then
    (some IcError.missingRegion, ic)
  else if size.isNone then
    (some IcError.missingRegion, ic)
  else
    let ic1 := { ic with
      m_axis := ic.m_axis ++ [(name, { axi := m_axi, origin := origin, size := size })] }
    let r := get_check_parameters ic1 false
    match r.1 with
    | Except.error e => (some e, r.2)
    | Except.ok _ => (none, r.2)

/-- `math.ceil(math.log2(n))` for a positive integer `n`: the least `k`
with `n ≤ 2 ^ k`, computed as the number of exponents `k < n` whose power
`2 ^ k` still falls short of `n` (the set of such `k` is an initial
segment, so counting them yields the least upper exponent).  The Python
code computes this through floating point, which is exact for every size
below `2 ^ 49`. -/
def clog2 (n : Nat) : Nat :=
  (List.range n).countP (fun k => 2 ^ k < n)

/-- The `m_widths` comprehension of `do_finalize`:
`math.ceil(math.log2(axi_if.size))` for each master in order;
`math.log2` raises for `size <= 0`, and a `None` size is a `TypeError`. -/
def m_widths_of : List AXIInterconnectInterface → Except IcError (List Nat)
  | [] => Except.ok []
  | a :: rest =>
    match a.size with
    | none => Except.error IcError.typeNone
    | some s =>
      if s ≤ 0 then Except.error IcError.invalidRegion
      else (m_widths_of rest).map (fun ws => clog2 s.toNat :: ws)

/-- The `m_origins` comprehension of `do_finalize`: each master's origin in
order (a `None` origin only explodes later, when `format_m_params` ORs it;
modelled as failing here). -/
def m_origins_of : List AXIInterconnectInterface → Except IcError (List Nat)
  | [] => Except.ok []
  | a :: rest =>
    match a.origin with
    | none => Except.error IcError.typeNone
    | some o => (m_origins_of rest).map (fun os => o :: os)

/-- `format_m_params(params, width)`: fold the parameters from the last to
the first with `value <<= width; value |= param` and wrap the result in a
`Constant` of declared width `len(params) * width`.  No masking is applied
to the parameters. -/
def format_m_params (params : List Nat) (width : Nat) : Constant :=
  { value := params.reverse.foldl (fun value param => (value <<< width) ||| param) 0
    nbits := params.length * width }

/-- The region-parameter derivation fragment of `do_finalize`: compute the
per-master region widths (this is where a bad size raises, at line 181,
before any packing) and origins, then pack both.  `M_BASE_ADDR` uses field
width `address_width`, `M_ADDR_WIDTH` a fixed field width of 32. -/
def derive_region_params (m_axis : List AXIInterconnectInterface)
    (address_width : Nat) : Except IcError (Constant × Constant) :=
  match m_widths_of m_axis with
  | Except.error e => Except.error e
  | Except.ok m_widths =>
    match m_origins_of m_axis with
    | Except.error e => Except.error e
    | Except.ok m_origins =>
      Except.ok (format_m_params m_origins address_width,
                 format_m_params m_widths 32)

/-- migen's `Cat(a, b, ...)`: concatenation with the first signal in the
least significant bits; each signal contributes exactly its `width` bits. -/
def Cat : List Signal → Signal
  | [] => { width := 0, value := 0 }
  | s :: rest =>
    let r := Cat rest
    { width := s.width + r.width
      value := s.value % 2 ^ s.width + r.value * 2 ^ s.width }

/-- The per-field packing of `do_finalize`:
`Cat(*[field(axi) for axi in axis])` over the ports of one group in
registration order. -/
def packField (axis : List AXIInterface) (field : AXIInterface → Signal) :
    Signal :=
  Cat (axis.map field)

/-! ## Specification-side definitions -/

/-- The value packed by `format_m_params` as the specification words it:
`Σ params[i] * 2 ^ (width * i)`, written in Horner form. -/
def packedValue (params : List Nat) (width : Nat) : Nat :=
  params.foldr (fun p v => v * 2 ^ width + p) 0

/-- Extraction of the `i`-th field of width `width` from a packed value:
bits `[width*(i+1)-1 : width*i]`. -/
def fieldSlice (v width i : Nat) : Nat :=
  v / 2 ^ (width * i) % 2 ^ width

/-- The validation outcome as §4.2 of the specification words it: collect
the ports slaves-then-masters, take the first as reference, and check
clock domain, then address width, then data width, failing on the first
mismatching port with the property and that port's position; derive the ID
width from the first port unchecked. -/
def validationResultSpec (ports : List AXIInterface) :
    Except IcError GlobalParameters :=
  match ports with
  | [] => Except.error IcError.emptyRegistry
  | ref :: _ =>
    match firstMismatch (ports.map AXIInterface.clock_domain) ref.clock_domain with
    | some i =>
      Except.error (IcError.consistency ConsistencyProperty.clock_domain i)
    | none =>
      match firstMismatch (ports.map (fun a => a.aw_addr.width)) ref.aw_addr.width with
      | some i =>
        Except.error (IcError.consistency ConsistencyProperty.address_width i)
      | none =>
        match firstMismatch (ports.map (fun a => a.w_data.width)) ref.w_data.width with
        | some i =>
          Except.error (IcError.consistency ConsistencyProperty.data_width i)
        | none =>
          Except.ok
            { clock_domain := ref.clock_domain
              address_width := ref.aw_addr.width
              data_width := ref.w_data.width
              id_width := ref.aw_id.width }

/-- The error component of a validation outcome. -/
def errOf (r : Except IcError GlobalParameters) : Option IcError :=
  match r with
  | Except.error e => some e
  | Except.ok _ => none

/-! ## General helper instances and lemmas -/

instance {ε α : Type} [DecidableEq ε] [DecidableEq α] : DecidableEq (Except ε α) := fun
  | Except.error e, Except.error f =>
    if h : e = f then isTrue (by rw [h]) else isFalse (by intro c; injection c; contradiction)
  | Except.error _, Except.ok _ => isFalse (fun c => Except.noConfusion c)
  | Except.ok _, Except.error _ => isFalse (fun c => Except.noConfusion c)
  | Except.ok a, Except.ok b =>
    if h : a = b then isTrue (by rw [h]) else isFalse (by intro c; injection c; contradiction)

theorem dictInsert_of_not_mem {α : Type} {d : List (String × α)} {k : String}
    (v : α) (h : k ∉ d.map Prod.fst) : dictInsert d k v = d ++ [(k, v)] := by
  unfold dictInsert
  rw [if_neg h]

/-- When all names are distinct (the registry invariant of §3), merging the
two mappings is plain concatenation: slaves then masters. -/
theorem dictMerge_eq_append {α : Type} (a b : List (String × α))
    (h : ((a ++ b).map Prod.fst).Nodup) : dictMerge a b = a ++ b := by
  induction b generalizing a with
  | nil => simp [dictMerge]
  | cons p bs ih =>
    have hmap : (a ++ p :: bs).map Prod.fst
        = a.map Prod.fst ++ p.1 :: bs.map Prod.fst := by simp
    rw [hmap] at h
    have hd := (List.nodup_append.mp h).2.2
    have hk : p.1 ∉ a.map Prod.fst := by
      intro hc
      exact hd hc (List.mem_cons_self _ _)
    have step : dictMerge a (p :: bs) = dictMerge (a ++ [p]) bs := by
      show List.foldl _ (dictInsert a p.1 p.2) bs = _
      rw [dictInsert_of_not_mem _ hk]
      rfl
    rw [step, ih (a ++ [p]) (by simpa using h)]
    simp

/-- `get_check_parameters` never touches the two registry mappings (it only
assigns the derived-parameter attributes). -/
theorem get_check_parameters_frame (ic : AXIInterconnect) (show' : Bool) :
    (get_check_parameters ic show').2.s_axis = ic.s_axis ∧
    (get_check_parameters ic show').2.m_axis = ic.m_axis := by
  unfold get_check_parameters
  split
  · exact ⟨rfl, rfl⟩
  · dsimp only
    split
    · exact ⟨rfl, rfl⟩
    · split
      · exact ⟨rfl, rfl⟩
      · split
        · exact ⟨rfl, rfl⟩
        · exact ⟨rfl, rfl⟩

/-- The outcome of `get_check_parameters` depends only on the registry
mappings, not on the cached attributes or the `show` flag. -/
theorem get_check_parameters_pure (ic ic' : AXIInterconnect) (sh sh' : Bool)
    (hs : ic.s_axis = ic'.s_axis) (hm : ic.m_axis = ic'.m_axis) :
    (get_check_parameters ic sh).1 = (get_check_parameters ic' sh').1 := by
  unfold get_check_parameters
  rw [hs, hm]
  split
  · rfl
  · dsimp only
    split
    · rfl
    · split
      · rfl
      · split
        · rfl
        · rfl

/-- Under the registry invariant that all port names are distinct, the
outcome of `get_check_parameters` is exactly the §4.2 specification
outcome over the slaves-then-masters port sequence. -/
theorem get_check_parameters_eq_spec (ic : AXIInterconnect) (show' : Bool)
    (h : ((ic.s_axis ++ ic.m_axis).map Prod.fst).Nodup) :
    (get_check_parameters ic show').1 =
      validationResultSpec ((ic.s_axis ++ ic.m_axis).map (fun p => p.2.axi)) := by
  unfold get_check_parameters validationResultSpec
  rw [dictMerge_eq_append _ _ h]
  cases hx : (ic.s_axis ++ ic.m_axis).map (fun p => p.2.axi) with
  | nil => rfl
  | cons a0 rest =>
    dsimp only
    split
    · rfl
    · split
      · rfl
      · split
        · rfl
        · rfl

theorem format_m_params_value_nil (w : Nat) : (format_m_params [] w).value = 0 := rfl

theorem format_m_params_value_cons (p : Nat) (ps : List Nat) (w : Nat) :
    (format_m_params (p :: ps) w).value =
      ((format_m_params ps w).value <<< w) ||| p := by
  unfold format_m_params
  dsimp only
  rw [List.reverse_cons, List.foldl_append]
  rfl

theorem packedValue_nil (w : Nat) : packedValue [] w = 0 := rfl

theorem packedValue_cons (p : Nat) (ps : List Nat) (w : Nat) :
    packedValue (p :: ps) w = packedValue ps w * 2 ^ w + p := rfl

/-- When every parameter fits its field, the shift/or fold of
`format_m_params` computes the arithmetic packed value
`Σ params[i] * 2 ^ (width * i)`. -/
theorem format_m_params_value_eq_packedValue (ps : List Nat) (w : Nat)
    (h : ∀ p ∈ ps, p < 2 ^ w) :
    (format_m_params ps w).value = packedValue ps w := by
  induction ps with
  | nil => rfl
  | cons p ps ih =>
    rw [format_m_params_value_cons, packedValue_cons,
      ih (fun q hq => h q (List.mem_cons_of_mem _ hq)), Nat.shiftLeft_eq,
      Nat.mul_comm (packedValue ps w) (2 ^ w)]
    exact (Nat.mul_add_lt_is_or (h p (List.mem_cons_self _ _)) _).symm

/-- `packedValue` is the Horner form of the sum the specification writes:
`Σ_{i < n} params[i] * 2 ^ (width * i)`. -/
theorem packedValue_eq_sum (ps : List Nat) (w : Nat) :
    packedValue ps w =
      ∑ i ∈ Finset.range ps.length, ps.getD i 0 * 2 ^ (w * i) := by
  induction ps with
  | nil => simp [packedValue]
  | cons p ps ih =>
    rw [packedValue_cons, ih]
    rw [List.length_cons, Finset.sum_range_succ']
    simp only [List.getD_cons_succ, List.getD_cons_zero, Nat.mul_zero,
      Nat.pow_zero, Nat.mul_one]
    rw [Finset.sum_mul]
    congr 1
    refine Finset.sum_congr rfl (fun i _ => ?_)
    rw [Nat.mul_assoc, ← Nat.pow_add]
    congr 2

/-- Field round trip on the packed arithmetic value: when every parameter
fits its field, extracting field `i` returns `params[i]`. -/
theorem packedValue_slice (ps : List Nat) (w : Nat)
    (h : ∀ p ∈ ps, p < 2 ^ w) :
    ∀ i (hi : i < ps.length),
      fieldSlice (packedValue ps w) w i = ps.get ⟨i, hi⟩ := by
  induction ps with
  | nil => intro i hi; simp at hi
  | cons p ps ih =>
    intro i hi
    have hp : p < 2 ^ w := h p (List.mem_cons_self _ _)
    have hrest : ∀ q ∈ ps, q < 2 ^ w := fun q hq => h q (List.mem_cons_of_mem _ hq)
    match i with
    | 0 =>
      show packedValue (p :: ps) w / 2 ^ (w * 0) % 2 ^ w = p
      rw [packedValue_cons, Nat.mul_zero, Nat.pow_zero, Nat.div_one,
        Nat.mul_comm (packedValue ps w) (2 ^ w), Nat.mul_add_mod,
        Nat.mod_eq_of_lt hp]
    | Nat.succ i =>
      show packedValue (p :: ps) w / 2 ^ (w * (i + 1)) % 2 ^ w = _
      have hsplit : (2 : Nat) ^ (w * (i + 1)) = 2 ^ w * 2 ^ (w * i) := by
        rw [← Nat.pow_add]
        congr 1
        ring
      rw [packedValue_cons, hsplit, ← Nat.div_div_eq_div_mul,
        Nat.add_comm (packedValue ps w * 2 ^ w) p,
        Nat.add_mul_div_right _ _ (Nat.pos_pow_of_pos w (by omega)),
        Nat.div_eq_of_lt hp, Nat.zero_add]
      exact ih hrest i (by simpa using hi)

theorem Cat_width_uniform (sigs : List Signal) (W : Nat)
    (h : ∀ s ∈ sigs, s.width = W) : (Cat sigs).width = sigs.length * W := by
  induction sigs with
  | nil => simp [Cat]
  | cons s rest ih =>
    show s.width + (Cat rest).width = _
    rw [h s (List.mem_cons_self _ _),
      ih (fun t ht => h t (List.mem_cons_of_mem _ ht)), List.length_cons]
    ring

/-- Extracting the `i`-th field of a uniform-width concatenation returns
the `i`-th signal's (truncated) value: port 0 sits in the low-order bits. -/
theorem Cat_slice_uniform (sigs : List Signal) (W : Nat)
    (h : ∀ s ∈ sigs, s.width = W) :
    ∀ i (hi : i < sigs.length),
      fieldSlice (Cat sigs).value W i = (sigs.get ⟨i, hi⟩).value % 2 ^ W := by
  induction sigs with
  | nil => intro i hi; simp at hi
  | cons s rest ih =>
    intro i hi
    have hs : s.width = W := h s (List.mem_cons_self _ _)
    have hrest : ∀ t ∈ rest, t.width = W := fun t ht => h t (List.mem_cons_of_mem _ ht)
    have hvalue : (Cat (s :: rest)).value
        = s.value % 2 ^ W + (Cat rest).value * 2 ^ W := by
      show s.value % 2 ^ s.width + (Cat rest).value * 2 ^ s.width = _
      rw [hs]
    have hmodlt : s.value % 2 ^ W < 2 ^ W :=
      Nat.mod_lt _ (Nat.pos_pow_of_pos W (by omega))
    match i with
    | 0 =>
      show (Cat (s :: rest)).value / 2 ^ (W * 0) % 2 ^ W = s.value % 2 ^ W
      rw [hvalue, Nat.mul_zero, Nat.pow_zero, Nat.div_one,
        Nat.mul_comm ((Cat rest).value) (2 ^ W), Nat.add_comm,
        Nat.mul_add_mod]
      exact Nat.mod_eq_of_lt hmodlt
    | Nat.succ i =>
      show (Cat (s :: rest)).value / 2 ^ (W * (i + 1)) % 2 ^ W = _
      have hsplit : (2 : Nat) ^ (W * (i + 1)) = 2 ^ W * 2 ^ (W * i) := by
        rw [← Nat.pow_add]
        congr 1
        ring
      rw [hvalue, hsplit, ← Nat.div_div_eq_div_mul,
        Nat.add_mul_div_right _ _ (Nat.pos_pow_of_pos W (by omega)),
        Nat.div_eq_of_lt hmodlt, Nat.zero_add]
      exact ih hrest i (by simpa using hi)

theorem firstMismatchAux_eq_none_iff {α : Type} [DecidableEq α] (ref : α) :
    ∀ (l : List α) (i : Nat),
      firstMismatchAux ref l i = none ↔ ∀ v ∈ l, v = ref := by
  intro l
  induction l with
  | nil => intro i; simp [firstMismatchAux]
  | cons v rest ih =>
    intro i
    unfold firstMismatchAux
    by_cases hv : v = ref
    · simp [hv, ih (i + 1)]
    · simp [hv]

theorem firstMismatch_eq_none_iff {α : Type} [DecidableEq α]
    (vals : List α) (ref : α) :
    firstMismatch vals ref = none ↔ ∀ v ∈ vals, v = ref :=
  firstMismatchAux_eq_none_iff ref vals 0

theorem firstMismatch_exists_of_mismatch {α : Type} [DecidableEq α]
    {vals : List α} {ref : α} (h : ∃ v ∈ vals, v ≠ ref) :
    ∃ j, firstMismatch vals ref = some j := by
  cases hm : firstMismatch vals ref with
  | some j => exact ⟨j, rfl⟩
  | none =>
    obtain ⟨v, hv, hne⟩ := h
    exact absurd ((firstMismatch_eq_none_iff vals ref).mp hm v hv) hne

/-- `firstMismatch` returns precisely the position of the first element
that differs from the reference. -/
theorem firstMismatch_some_iff {α : Type} [DecidableEq α]
    (vals : List α) (ref : α) (j : Nat) :
    firstMismatch vals ref = some j ↔
      j < vals.length ∧ vals.getD j ref ≠ ref ∧
        ∀ k, k < j → vals.getD k ref = ref := by
  have aux : ∀ (l : List α) (base j : Nat),
      firstMismatchAux ref l base = some j ↔
        ∃ t, j = base + t ∧ t < l.length ∧ l.getD t ref ≠ ref ∧
          ∀ k, k < t → l.getD k ref = ref := by
    intro l
    induction l with
    | nil => intro base j; simp [firstMismatchAux]
    | cons v rest ih =>
      intro base j
      by_cases hv : v = ref
      · have hstep : firstMismatchAux ref (v :: rest) base
            = firstMismatchAux ref rest (base + 1) := by
          simp [firstMismatchAux, hv]
        rw [hstep, ih (base + 1) j]
        constructor
        · rintro ⟨t, rfl, ht, hne, hall⟩
          refine ⟨t + 1, by omega, by simpa using ht, by simpa using hne, ?_⟩
          intro k hk
          match k with
          | 0 => simpa using hv
          | Nat.succ k => simpa using hall k (by omega)
        · rintro ⟨t, rfl, ht, hne, hall⟩
          match t with
          | 0 => exact absurd (by simpa using hv) (by simpa using hne)
          | Nat.succ t =>
            refine ⟨t, by omega, by simpa using ht, by simpa using hne, ?_⟩
            intro k hk
            simpa using hall (k + 1) (by omega)
      · have hstep : firstMismatchAux ref (v :: rest) base = some base := by
          simp [firstMismatchAux, hv]
        rw [hstep]
        constructor
        · intro hj
          have hbj : base = j := by injection hj
          subst hbj
          exact ⟨0, by omega, by simp, by simpa using hv,
            fun k hk => absurd hk (by omega)⟩
        · rintro ⟨t, rfl, ht, hne, hall⟩
          match t with
          | 0 => rfl
          | Nat.succ t =>
            exact absurd (by simpa using hall 0 (by omega)) (by simpa using hv)
  rw [show firstMismatch vals ref = firstMismatchAux ref vals 0 from rfl, aux vals 0 j]
  constructor
  · rintro ⟨t, rfl, ht, hne, hall⟩
    exact ⟨by simpa using ht, by simpa using hne, by simpa using hall⟩
  · rintro ⟨hj, hne, hall⟩
    exact ⟨j, by omega, hj, hne, hall⟩

theorem add_slave_dup (ic : AXIInterconnect) (name : String) (iface : AXIInterface)
    (h : name ∈ ic.s_axis.map Prod.fst) :
    add_slave ic (some name) iface = (some IcError.duplicateName, ic) := by
  unfold add_slave
  dsimp only
  rw [if_pos h]

theorem add_slave_fresh (ic : AXIInterconnect) (name : String) (iface : AXIInterface)
    (h : name ∉ ic.s_axis.map Prod.fst) :
    (add_slave ic (some name) iface).1 =
      errOf (get_check_parameters
        { ic with s_axis := ic.s_axis ++ [(name, { axi := iface })] } false).1 ∧
    (add_slave ic (some name) iface).2 =
      (get_check_parameters
        { ic with s_axis := ic.s_axis ++ [(name, { axi := iface })] } false).2 := by
  unfold add_slave
  dsimp only
  rw [if_neg h]
  cases hr : (get_check_parameters
      { ic with s_axis := ic.s_axis ++ [(name, { axi := iface })] } false).1 with
  | error e => exact ⟨by simp [errOf], rfl⟩
  | ok g => exact ⟨by simp [errOf], rfl⟩

theorem add_master_dup (ic : AXIInterconnect) (name : String) (iface : AXIInterface)
    (origin : Option Nat) (size : Option Int)
    (h : name ∈ ic.m_axis.map Prod.fst) :
    add_master ic (some name) iface origin size = (some IcError.duplicateName, ic) := by
  unfold add_master
  dsimp only
  rw [if_pos h]

theorem add_master_fresh (ic : AXIInterconnect) (name : String) (iface : AXIInterface)
    (o : Nat) (s : Int) (h : name ∉ ic.m_axis.map Prod.fst) :
    (add_master ic (some name) iface (some o) (some s)).1 =
      errOf (get_check_parameters
        { ic with m_axis := ic.m_axis ++
            [(name, { axi := iface, origin := some o, size := some s })] } false).1 ∧
    (add_master ic (some name) iface (some o) (some s)).2 =
      (get_check_parameters
        { ic with m_axis := ic.m_axis ++
            [(name, { axi := iface, origin := some o, size := some s })] } false).2 := by
  unfold add_master
  dsimp only
  rw [if_neg h]
  simp only [Option.isNone_some, Bool.false_eq_true, if_false]
  cases hr : (get_check_parameters
      { ic with m_axis := ic.m_axis ++
          [(name, { axi := iface, origin := some o, size := some s })] } false).1 with
  | error e => exact ⟨by simp [errOf], rfl⟩
  | ok g => exact ⟨by simp [errOf], rfl⟩

theorem m_widths_of_ok (ms : List AXIInterconnectInterface) (sizes : List Int)
    (h : ms.map (fun a => a.size) = sizes.map some)
    (hpos : ∀ s ∈ sizes, 0 < s) :
    m_widths_of ms = Except.ok (sizes.map (fun s => clog2 s.toNat)) := by
  induction ms generalizing sizes with
  | nil =>
    have : sizes = [] := by
      cases sizes with
      | nil => rfl
      | cons s ss => simp at h
    subst this
    rfl
  | cons a ms ih =>
    cases sizes with
    | nil => simp at h
    | cons s ss =>
      simp only [List.map_cons, List.cons.injEq] at h
      obtain ⟨hsz, hrest⟩ := h
      have hs : 0 < s := hpos s (List.mem_cons_self _ _)
      unfold m_widths_of
      rw [hsz]
      dsimp only
      rw [if_neg (by omega)]
      rw [ih ss hrest (fun t ht => hpos t (List.mem_cons_of_mem _ ht))]
      rfl

theorem m_widths_of_err (ms : List AXIInterconnectInterface)
    (hsome : ∀ a ∈ ms, ∃ s, a.size = some s)
    (hbad : ∃ a ∈ ms, ∃ s, a.size = some s ∧ s ≤ 0) :
    m_widths_of ms = Except.error IcError.invalidRegion := by
  induction ms with
  | nil => simp at hbad
  | cons a ms ih =>
    obtain ⟨s, hs⟩ := hsome a (List.mem_cons_self _ _)
    unfold m_widths_of
    rw [hs]
    dsimp only
    by_cases hneg : s ≤ 0
    · rw [if_pos hneg]
    · rw [if_neg hneg]
      have hbad' : ∃ b ∈ ms, ∃ t, b.size = some t ∧ t ≤ 0 := by
        obtain ⟨b, hb, t, hbt, ht⟩ := hbad
        rcases List.mem_cons.mp hb with hba | hbm
        · subst hba
          rw [hs] at hbt
          injection hbt with hst
          omega
        · exact ⟨b, hbm, t, hbt, ht⟩
      rw [ih (fun b hb => hsome b (List.mem_cons_of_mem _ hb)) hbad']
      rfl

theorem m_origins_of_ok (ms : List AXIInterconnectInterface) (origins : List Nat)
    (h : ms.map (fun a => a.origin) = origins.map some) :
    m_origins_of ms = Except.ok origins := by
  induction ms generalizing origins with
  | nil =>
    have : origins = [] := by
      cases origins with
      | nil => rfl
      | cons o os => simp at h
    subst this
    rfl
  | cons a ms ih =>
    cases origins with
    | nil => simp at h
    | cons o os =>
      simp only [List.map_cons, List.cons.injEq] at h
      obtain ⟨ho, hrest⟩ := h
      unfold m_origins_of
      rw [ho, ih os hrest]
      rfl

/-! ## Concrete fixtures used by witnesses and counterexamples -/

/-- A zero-valued signal of the given width. -/
def sigW (w : Nat) : Signal := { width := w, value := 0 }

/-- Interface in clock domain `sys`, 32-bit address, 32-bit data, 8-bit ID. -/
def ifaceA : AXIInterface :=
  { clock_domain := "sys", aw_addr := sigW 32, w_data := sigW 32, aw_id := sigW 8 }

/-- Like `ifaceA` but in a different clock domain. -/
def ifaceB : AXIInterface :=
  { clock_domain := "clkb", aw_addr := sigW 32, w_data := sigW 32, aw_id := sigW 8 }

/-- Like `ifaceA` but with a different ID width. -/
def ifaceC : AXIInterface :=
  { clock_domain := "sys", aw_addr := sigW 32, w_data := sigW 32, aw_id := sigW 4 }

/-! ## Claim C4 -/

/-- C4: when the registry is empty (no slave and no master ports
registered), `get_check_parameters` fails with the empty-registry error
(the `IndexError` of `axis[0]`, named `EmptyRegistryError` by the
specification) and leaves the object unchanged. -/
theorem C4_empty_registry_validation (ic : AXIInterconnect) (show' : Bool)
    (hs : ic.s_axis = []) (hm : ic.m_axis = []) :
    get_check_parameters ic show' = (Except.error IcError.emptyRegistry, ic) := by
  unfold get_check_parameters
  rw [hs, hm]
  rfl

theorem C4_empty_registry_validation_witness :
    get_check_parameters empty_interconnect true
      = (Except.error IcError.emptyRegistry, empty_interconnect) :=
  C4_empty_registry_validation empty_interconnect true rfl rfl

/-! ## Claim C8 -/

/-- C8: registering a slave twice under the same explicit name fails with
the duplicate-name error on the second call and leaves the slave mapping
exactly as it was after the first call; starting from an empty registry the
slave count remains 1. -/
theorem C8_duplicate_slave_name (ic ic1 : AXIInterconnect) (name : String)
    (if1 if2 : AXIInterface)
    (h1 : add_slave ic (some name) if1 = (none, ic1)) :
    add_slave ic1 (some name) if2 = (some IcError.duplicateName, ic1) ∧
    ic1.s_axis.length = ic.s_axis.length + 1 ∧
    (ic.s_axis = [] → ic1.s_axis.length = 1) := by
  by_cases hmem : name ∈ ic.s_axis.map Prod.fst
  · rw [add_slave_dup ic name if1 hmem] at h1
    simp at h1
  · obtain ⟨hfst, hsnd⟩ := add_slave_fresh ic name if1 hmem
    have h1snd : (add_slave ic (some name) if1).2 = ic1 := by rw [h1]
    have hframe := get_check_parameters_frame
      { ic with s_axis := ic.s_axis ++ [(name, { axi := if1 })] } false
    have hs1 : ic1.s_axis = ic.s_axis ++ [(name, { axi := if1 })] := by
      rw [← h1snd, hsnd]
      exact hframe.1
    have hmem1 : name ∈ ic1.s_axis.map Prod.fst := by
      rw [hs1]
      simp
    refine ⟨add_slave_dup ic1 name if2 hmem1, ?_, ?_⟩
    · rw [hs1]
      simp
    · intro h0
      rw [hs1, h0]
      rfl

/-- The registry obtained by one successful default-width registration. -/
def ic8 : AXIInterconnect := (add_slave empty_interconnect (some "s_axi0") ifaceA).2

theorem C8_duplicate_slave_name_witness :
    add_slave ic8 (some "s_axi0") ifaceB = (some IcError.duplicateName, ic8) ∧
    ic8.s_axis.length = 1 := by
  have h := C8_duplicate_slave_name empty_interconnect ic8 "s_axi0" ifaceA ifaceB
    (by decide)
  exact ⟨h.1, h.2.2 rfl⟩

/-! ## Claim C10 -/

/-- C10: with the name omitted, `add_slave` (resp. `add_master`) always
uses `"s_axi" + str(len(s_axis))` (resp. `"m_axi" + str(len(m_axis))`)
without searching for a free name, so it behaves exactly like an explicit
registration under that name; in particular it fails with the
duplicate-name error, leaving the registry unchanged, whenever that exact
name is already registered. -/
theorem C10_default_name_assignment :
    (∀ (ic : AXIInterconnect) (iface : AXIInterface),
      add_slave ic none iface =
        add_slave ic (some ("s_axi" ++ toString ic.s_axis.length)) iface) ∧
    (∀ (ic : AXIInterconnect) (iface : AXIInterface)
        (o : Option Nat) (s : Option Int),
      add_master ic none iface o s =
        add_master ic (some ("m_axi" ++ toString ic.m_axis.length)) iface o s) ∧
    (∀ (ic : AXIInterconnect) (iface : AXIInterface),
      ("s_axi" ++ toString ic.s_axis.length) ∈ ic.s_axis.map Prod.fst →
      add_slave ic none iface = (some IcError.duplicateName, ic)) ∧
    (∀ (ic : AXIInterconnect) (iface : AXIInterface)
        (o : Option Nat) (s : Option Int),
      ("m_axi" ++ toString ic.m_axis.length) ∈ ic.m_axis.map Prod.fst →
      add_master ic none iface o s = (some IcError.duplicateName, ic)) := by
  refine ⟨fun ic iface => rfl, fun ic iface o s => rfl, ?_, ?_⟩
  · intro ic iface h
    exact add_slave_dup ic ("s_axi" ++ toString ic.s_axis.length) iface h
  · intro ic iface o s h
    exact add_master_dup ic ("m_axi" ++ toString ic.m_axis.length) iface o s h

/-- A registry whose explicitly chosen names collide with the next default
names (`len(s_axis) = 1` and a slave called `s_axi1`; `len(m_axis) = 1`
and a master called `m_axi1`). -/
def ic10 : AXIInterconnect :=
  { s_axis := [("s_axi1", { axi := ifaceA })]
    m_axis := [("m_axi1", { axi := ifaceA, origin := some 0, size := some 16 })] }

theorem C10_default_name_assignment_witness :
    add_slave ic10 none ifaceA = (some IcError.duplicateName, ic10) ∧
    add_master ic10 none ifaceA (some 0) (some 16)
      = (some IcError.duplicateName, ic10) ∧
    add_slave empty_interconnect none ifaceA
      = add_slave empty_interconnect
          (some ("s_axi" ++ toString empty_interconnect.s_axis.length)) ifaceA :=
  ⟨C10_default_name_assignment.2.2.1 ic10 ifaceA (by decide),
   C10_default_name_assignment.2.2.2 ic10 ifaceA (some 0) (some 16) (by decide),
   C10_default_name_assignment.1 empty_interconnect ifaceA⟩

/-! ## Claim C3 -/

/-- A registry holding one consistent slave, built through the API. -/
def ic3 : AXIInterconnect := (add_slave empty_interconnect (some "a") ifaceA).2

/-- C3 counterexample: a registration whose immediately following
consistency validation fails does NOT retain the prior registry state —
the offending port is still present in the slave mapping after the error,
because the code mutates the mapping before validating and the exception
does not undo the insertion. -/
theorem C3_counterexample :
    (add_slave ic3 (some "b") ifaceB).1
      = some (IcError.consistency ConsistencyProperty.clock_domain 1) ∧
    "b" ∈ (add_slave ic3 (some "b") ifaceB).2.s_axis.map Prod.fst := by
  decide

/-- C3 amended: when the consistency validation following a registration
fails, the error is reported to the caller but the newly added port
remains in the corresponding mapping (prior state is NOT restored). -/
theorem C3_failed_registration_keeps_port :
    (∀ (ic : AXIInterconnect) (name : String) (iface : AXIInterface) (e : IcError),
      name ∉ ic.s_axis.map Prod.fst →
      (get_check_parameters
        { ic with s_axis := ic.s_axis ++ [(name, { axi := iface })] } false).1
        = Except.error e →
      (add_slave ic (some name) iface).1 = some e ∧
      name ∈ (add_slave ic (some name) iface).2.s_axis.map Prod.fst) ∧
    (∀ (ic : AXIInterconnect) (name : String) (iface : AXIInterface)
        (o : Nat) (s : Int) (e : IcError),
      name ∉ ic.m_axis.map Prod.fst →
      (get_check_parameters
        { ic with m_axis := ic.m_axis ++
            [(name, { axi := iface, origin := some o, size := some s })] } false).1
        = Except.error e →
      (add_master ic (some name) iface (some o) (some s)).1 = some e ∧
      name ∈ (add_master ic (some name) iface (some o) (some s)).2.m_axis.map Prod.fst) := by
  constructor
  · intro ic name iface e hmem herr
    obtain ⟨hfst, hsnd⟩ := add_slave_fresh ic name iface hmem
    have hframe := get_check_parameters_frame
      { ic with s_axis := ic.s_axis ++ [(name, { axi := iface })] } false
    constructor
    · rw [hfst, herr]
      rfl
    · rw [hsnd, hframe.1]
      simp
  · intro ic name iface o s e hmem herr
    obtain ⟨hfst, hsnd⟩ := add_master_fresh ic name iface o s hmem
    have hframe := get_check_parameters_frame
      { ic with m_axis := ic.m_axis ++
          [(name, { axi := iface, origin := some o, size := some s })] } false
    constructor
    · rw [hfst, herr]
      rfl
    · rw [hsnd, hframe.2]
      simp

theorem C3_failed_registration_keeps_port_witness :
    (add_slave ic3 (some "c") ifaceB).1
      = some (IcError.consistency ConsistencyProperty.clock_domain 1) ∧
    "c" ∈ (add_slave ic3 (some "c") ifaceB).2.s_axis.map Prod.fst :=
  C3_failed_registration_keeps_port.1 ic3 "c" ifaceB
    (IcError.consistency ConsistencyProperty.clock_domain 1)
    (by decide) (by decide)

/-- A validation call is state-idempotent: the attribute assignments of
`get_check_parameters` write values derived from the merged port list,
which the call itself never changes, so running it on any of its own
output states (every state the API can produce is one) rewrites the same
values and leaves the object bit-identical. -/
theorem get_check_parameters_state_fixpoint (ic0 : AXIInterconnect)
    (sh0 sh : Bool) :
    (get_check_parameters (get_check_parameters ic0 sh0).2 sh).2
      = (get_check_parameters ic0 sh0).2 := by
  cases hx : (dictMerge ic0.s_axis ic0.m_axis).map (fun p => p.2.axi) with
  | nil =>
    have h1 : get_check_parameters ic0 sh0
        = (Except.error IcError.emptyRegistry, ic0) := by
      unfold get_check_parameters
      rw [hx]
    have h2 : get_check_parameters ic0 sh
        = (Except.error IcError.emptyRegistry, ic0) := by
      unfold get_check_parameters
      rw [hx]
    rw [h1, h2]
  | cons a0 rest =>
    cases hc : firstMismatch ((a0 :: rest).map AXIInterface.clock_domain)
        a0.clock_domain with
    | some i =>
      have h1 : get_check_parameters ic0 sh0
          = (Except.error (IcError.consistency ConsistencyProperty.clock_domain i),
             { ic0 with clock_domain := some a0.clock_domain }) := by
        unfold get_check_parameters
        rw [hx]
        dsimp only
        rw [hc]
      rw [h1]
      unfold get_check_parameters
      dsimp only
      rw [hx]
      dsimp only
      rw [hc]
    | none =>
      cases ha : firstMismatch ((a0 :: rest).map (fun a => a.aw_addr.width))
          a0.aw_addr.width with
      | some i =>
        have h1 : get_check_parameters ic0 sh0
            = (Except.error (IcError.consistency ConsistencyProperty.address_width i),
               { ic0 with clock_domain := some a0.clock_domain,
                          address_width := some a0.aw_addr.width }) := by
          unfold get_check_parameters
          rw [hx]
          dsimp only
          rw [hc, ha]
        rw [h1]
        unfold get_check_parameters
        dsimp only
        rw [hx]
        dsimp only
        rw [hc, ha]
      | none =>
        cases hd : firstMismatch ((a0 :: rest).map (fun a => a.w_data.width))
            a0.w_data.width with
        | some i =>
          have h1 : get_check_parameters ic0 sh0
              = (Except.error (IcError.consistency ConsistencyProperty.data_width i),
                 { ic0 with clock_domain := some a0.clock_domain,
                            address_width := some a0.aw_addr.width,
                            data_width := some a0.w_data.width }) := by
            unfold get_check_parameters
            rw [hx]
            dsimp only
            rw [hc, ha, hd]
          rw [h1]
          unfold get_check_parameters
          dsimp only
          rw [hx]
          dsimp only
          rw [hc, ha, hd]
        | none =>
          have h1 : get_check_parameters ic0 sh0
              = (Except.ok
                  { clock_domain := a0.clock_domain
                    address_width := a0.aw_addr.width
                    data_width := a0.w_data.width
                    id_width := a0.aw_id.width },
                 { ic0 with clock_domain := some a0.clock_domain,
                            address_width := some a0.aw_addr.width,
                            data_width := some a0.w_data.width,
                            id_width := some a0.aw_id.width }) := by
            unfold get_check_parameters
            rw [hx]
            dsimp only
            rw [hc, ha, hd]
          rw [h1]
          unfold get_check_parameters
          dsimp only
          rw [hx]
          dsimp only
          rw [hc, ha, hd]

/-! ## Claim C5 -/

/-- C5: validation is a pure function of the current registry contents and
leaves the registry and validator state unchanged: its outcome depends
only on the two name → port mappings (never on the `show` flag or the
cached attributes), it never touches the mappings, and on every state the
API can produce — each such state is the output state of a previous
`get_check_parameters` call, starting from the freshly built object — the
call leaves the object state bit-identical (its attribute assignments
rewrite the values already present). -/
theorem C5_validation_pure_and_frame :
    (∀ (ic ic' : AXIInterconnect) (sh sh' : Bool),
      ic.s_axis = ic'.s_axis → ic.m_axis = ic'.m_axis →
      (get_check_parameters ic sh).1 = (get_check_parameters ic' sh').1) ∧
    (∀ (ic : AXIInterconnect) (sh : Bool),
      (get_check_parameters ic sh).2.s_axis = ic.s_axis ∧
      (get_check_parameters ic sh).2.m_axis = ic.m_axis) ∧
    (∀ (ic0 : AXIInterconnect) (sh0 sh : Bool),
      (get_check_parameters (get_check_parameters ic0 sh0).2 sh).2
        = (get_check_parameters ic0 sh0).2) ∧
    (∀ (sh : Bool),
      (get_check_parameters empty_interconnect sh).2 = empty_interconnect) :=
  ⟨get_check_parameters_pure,
   get_check_parameters_frame,
   get_check_parameters_state_fixpoint,
   fun _ => rfl⟩

theorem C5_validation_pure_and_frame_witness :
    (get_check_parameters ic3 true).1 = (get_check_parameters ic3 false).1 ∧
    (get_check_parameters ic3 true).2.s_axis = ic3.s_axis ∧
    (get_check_parameters (get_check_parameters ic3 true).2 false).2
      = (get_check_parameters ic3 true).2 := by
  refine ⟨C5_validation_pure_and_frame.1 ic3 ic3 true false rfl rfl,
    (C5_validation_pure_and_frame.2.1 ic3 true).1, ?_⟩
  exact C5_validation_pure_and_frame.2.2.1 ic3 true false

/-! ## Claim C2 -/

/-- C2: under the registry invariant that all port names are distinct
(§3), validation is exactly the §4.2 reference check: the first port
(slaves then masters, registration order) is the reference, and the
outcome is the first mismatch — clock domain first, then address width,
then data width — reported with the property and the offending port's
position (`validationResultSpec`, built from `firstMismatch`, whose
first-mismatch reading is pinned down by `firstMismatch_some_iff`).
In particular a registration (slave or master) introducing a port whose
clock domain differs from the first port's fails with the consistency
error for the clock-domain property. -/
theorem C2_validation_first_mismatch :
    (∀ (ic : AXIInterconnect) (sh : Bool),
      ((ic.s_axis ++ ic.m_axis).map Prod.fst).Nodup →
      (get_check_parameters ic sh).1 =
        validationResultSpec ((ic.s_axis ++ ic.m_axis).map (fun (p : String × AXIInterconnectInterface) => p.2.axi))) ∧
    (∀ (ic : AXIInterconnect) (name : String) (iface : AXIInterface)
        (n0 : String) (p0 : AXIInterconnectInterface)
        (rest : List (String × AXIInterconnectInterface)),
      ic.s_axis ++ ic.m_axis = (n0, p0) :: rest →
      (((ic.s_axis ++ [(name, ({ axi := iface } : AXIInterconnectInterface))]) ++ ic.m_axis).map Prod.fst).Nodup →
      iface.clock_domain ≠ p0.axi.clock_domain →
      ∃ j, (add_slave ic (some name) iface).1
        = some (IcError.consistency ConsistencyProperty.clock_domain j)) ∧
    (∀ (ic : AXIInterconnect) (name : String) (iface : AXIInterface)
        (o : Nat) (s : Int) (n0 : String) (p0 : AXIInterconnectInterface)
        (rest : List (String × AXIInterconnectInterface)),
      ic.s_axis ++ ic.m_axis = (n0, p0) :: rest →
      ((ic.s_axis ++ (ic.m_axis ++
          [(name, ({ axi := iface, origin := some o, size := some s } : AXIInterconnectInterface))])).map
        Prod.fst).Nodup →
      iface.clock_domain ≠ p0.axi.clock_domain →
      ∃ j, (add_master ic (some name) iface (some o) (some s)).1
        = some (IcError.consistency ConsistencyProperty.clock_domain j)) := by
  refine ⟨get_check_parameters_eq_spec, ?_, ?_⟩
  · intro ic name iface n0 p0 rest hhead hnodup hclk
    have hfreshname : name ∉ ic.s_axis.map Prod.fst := by
      have hmap : (((ic.s_axis ++ [(name, ({ axi := iface } : AXIInterconnectInterface))]) ++ ic.m_axis).map
            Prod.fst)
          = ic.s_axis.map Prod.fst ++ (name :: ic.m_axis.map Prod.fst) := by simp
      rw [hmap] at hnodup
      intro hc
      exact (List.nodup_append.mp hnodup).2.2 hc (List.mem_cons_self _ _)
    obtain ⟨hfst, _⟩ := add_slave_fresh ic name iface hfreshname
    cases hax : ((ic.s_axis ++ [(name, ({ axi := iface } : AXIInterconnectInterface))]) ++ ic.m_axis).map
        (fun (p : String × AXIInterconnectInterface) => p.2.axi) with
    | nil =>
      exfalso
      simp at hax
    | cons b0 brest =>
      have hmemnew : iface ∈ b0 :: brest := by
        rw [← hax]
        exact List.mem_map.mpr ⟨(name, ({ axi := iface } : AXIInterconnectInterface)), by simp, rfl⟩
      have hmemold : p0.axi ∈ b0 :: brest := by
        rw [← hax]
        refine List.mem_map.mpr ⟨(n0, p0), ?_, rfl⟩
        have hin : (n0, p0) ∈ ic.s_axis ++ ic.m_axis := by
          rw [hhead]
          exact List.mem_cons_self _ _
        rcases List.mem_append.mp hin with h | h
        · exact List.mem_append_left _ (List.mem_append_left _ h)
        · exact List.mem_append_right _ h
      have hmm : ∃ v ∈ (b0 :: brest).map AXIInterface.clock_domain,
          v ≠ b0.clock_domain := by
        by_cases hb : iface.clock_domain = b0.clock_domain
        · refine ⟨p0.axi.clock_domain,
            List.mem_map.mpr ⟨p0.axi, hmemold, rfl⟩, ?_⟩
          intro h
          exact hclk (hb.trans h.symm)
        · exact ⟨iface.clock_domain,
            List.mem_map.mpr ⟨iface, hmemnew, rfl⟩, hb⟩
      obtain ⟨j, hj⟩ := firstMismatch_exists_of_mismatch hmm
      refine ⟨j, ?_⟩
      rw [hfst, get_check_parameters_eq_spec
        { ic with s_axis := ic.s_axis ++ [(name, ({ axi := iface } : AXIInterconnectInterface))] } false hnodup]
      show errOf (validationResultSpec
        (((ic.s_axis ++ [(name, ({ axi := iface } : AXIInterconnectInterface))]) ++ ic.m_axis).map
          (fun (p : String × AXIInterconnectInterface) => p.2.axi))) = _
      rw [hax]
      unfold validationResultSpec
      dsimp only
      rw [hj]
      rfl
  · intro ic name iface o s n0 p0 rest hhead hnodup hclk
    have hfreshname : name ∉ ic.m_axis.map Prod.fst := by
      have hmap : ((ic.s_axis ++ (ic.m_axis ++
            [(name, ({ axi := iface, origin := some o, size := some s } : AXIInterconnectInterface))])).map
            Prod.fst)
          = ic.s_axis.map Prod.fst ++
            (ic.m_axis.map Prod.fst ++ [name]) := by simp
      rw [hmap] at hnodup
      have hinner := (List.nodup_append.mp hnodup).2.1
      intro hc
      exact (List.nodup_append.mp hinner).2.2 hc (List.mem_singleton.mpr rfl)
    obtain ⟨hfst, _⟩ := add_master_fresh ic name iface o s hfreshname
    cases hax : ((ic.s_axis ++ (ic.m_axis ++
        [(name, ({ axi := iface, origin := some o, size := some s } : AXIInterconnectInterface))])).map
        (fun (p : String × AXIInterconnectInterface) => p.2.axi)) with
    | nil =>
      exfalso
      simp at hax
    | cons b0 brest =>
      have hmemnew : iface ∈ b0 :: brest := by
        rw [← hax]
        exact List.mem_map.mpr
          ⟨(name, ({ axi := iface, origin := some o, size := some s } : AXIInterconnectInterface)), by simp, rfl⟩
      have hmemold : p0.axi ∈ b0 :: brest := by
        rw [← hax]
        refine List.mem_map.mpr ⟨(n0, p0), ?_, rfl⟩
        have hin : (n0, p0) ∈ ic.s_axis ++ ic.m_axis := by
          rw [hhead]
          exact List.mem_cons_self _ _
        rcases List.mem_append.mp hin with h | h
        · exact List.mem_append_left _ h
        · exact List.mem_append_right _ (List.mem_append_left _ h)
      have hmm : ∃ v ∈ (b0 :: brest).map AXIInterface.clock_domain,
          v ≠ b0.clock_domain := by
        by_cases hb : iface.clock_domain = b0.clock_domain
        · refine ⟨p0.axi.clock_domain,
            List.mem_map.mpr ⟨p0.axi, hmemold, rfl⟩, ?_⟩
          intro h
          exact hclk (hb.trans h.symm)
        · exact ⟨iface.clock_domain,
            List.mem_map.mpr ⟨iface, hmemnew, rfl⟩, hb⟩
      obtain ⟨j, hj⟩ := firstMismatch_exists_of_mismatch hmm
      refine ⟨j, ?_⟩
      rw [hfst, get_check_parameters_eq_spec
        { ic with m_axis := ic.m_axis ++
            [(name, ({ axi := iface, origin := some o, size := some s } : AXIInterconnectInterface))] }
        false hnodup]
      show errOf (validationResultSpec
        ((ic.s_axis ++ (ic.m_axis ++
            [(name, ({ axi := iface, origin := some o, size := some s } : AXIInterconnectInterface))])).map
          (fun (p : String × AXIInterconnectInterface) => p.2.axi))) = _
      rw [hax]
      unfold validationResultSpec
      dsimp only
      rw [hj]
      rfl

/-- A consistent two-port registry (one slave, one master). -/
def ic2w : AXIInterconnect :=
  { s_axis := [("a", { axi := ifaceA })]
    m_axis := [("m", { axi := ifaceA, origin := some 0, size := some 16 })] }

theorem C2_validation_first_mismatch_witness :
    (get_check_parameters ic2w true).1 =
      validationResultSpec ((ic2w.s_axis ++ ic2w.m_axis).map (fun p => p.2.axi)) ∧
    (∃ j, (add_slave ic3 (some "b2") ifaceB).1
      = some (IcError.consistency ConsistencyProperty.clock_domain j)) :=
  ⟨C2_validation_first_mismatch.1 ic2w true (by decide),
   C2_validation_first_mismatch.2.1 ic3 "b2" ifaceB "a"
     ({ axi := ifaceA } : AXIInterconnectInterface) [] (by decide) (by decide)
     (by decide)⟩

/-! ## Claim C7 -/

/-- C7: with at least one slave registered (and distinct port names, the
§3 invariant), a successful validation returns the ID width of the first
slave port's `aw.id` field, whatever the ID widths of every other port;
and ID widths never influence whether (or how) validation fails: two
registries whose ports agree on clock domain, address width and data width
— but may differ arbitrarily in ID widths — produce identical error
outcomes. -/
theorem C7_id_width_from_first_slave :
    (∀ (ic : AXIInterconnect) (sh : Bool) (n : String)
        (p : AXIInterconnectInterface)
        (rest : List (String × AXIInterconnectInterface))
        (gp : GlobalParameters),
      ((ic.s_axis ++ ic.m_axis).map Prod.fst).Nodup →
      ic.s_axis = (n, p) :: rest →
      (get_check_parameters ic sh).1 = Except.ok gp →
      gp.id_width = p.axi.aw_id.width) ∧
    (∀ (ic ic' : AXIInterconnect) (sh sh' : Bool),
      (dictMerge ic.s_axis ic.m_axis).map (fun q => q.2.axi.clock_domain)
        = (dictMerge ic'.s_axis ic'.m_axis).map (fun q => q.2.axi.clock_domain) →
      (dictMerge ic.s_axis ic.m_axis).map (fun q => q.2.axi.aw_addr.width)
        = (dictMerge ic'.s_axis ic'.m_axis).map (fun q => q.2.axi.aw_addr.width) →
      (dictMerge ic.s_axis ic.m_axis).map (fun q => q.2.axi.w_data.width)
        = (dictMerge ic'.s_axis ic'.m_axis).map (fun q => q.2.axi.w_data.width) →
      errOf (get_check_parameters ic sh).1
        = errOf (get_check_parameters ic' sh').1) := by
  constructor
  · intro ic sh n p rest gp hnodup hs hok
    rw [get_check_parameters_eq_spec ic sh hnodup] at hok
    rw [show ic.s_axis ++ ic.m_axis = (n, p) :: (rest ++ ic.m_axis) from by
      rw [hs]; simp] at hok
    rw [List.map_cons] at hok
    unfold validationResultSpec at hok
    dsimp only at hok
    rcases hc : firstMismatch
        ((p.axi :: (rest ++ ic.m_axis).map (fun q => q.2.axi)).map
          AXIInterface.clock_domain) p.axi.clock_domain with _ | i
    · rw [hc] at hok
      rcases ha : firstMismatch
          ((p.axi :: (rest ++ ic.m_axis).map (fun q => q.2.axi)).map
            (fun a => a.aw_addr.width)) p.axi.aw_addr.width with _ | i
      · rw [ha] at hok
        rcases hd : firstMismatch
            ((p.axi :: (rest ++ ic.m_axis).map (fun q => q.2.axi)).map
              (fun a => a.w_data.width)) p.axi.w_data.width with _ | i
        · rw [hd] at hok
          injection hok with hok
          rw [← hok]
        · rw [hd] at hok
          exact absurd hok (by simp)
      · rw [ha] at hok
        exact absurd hok (by simp)
    · rw [hc] at hok
      exact absurd hok (by simp)
  · intro ic ic' sh sh' hc ha hd
    have hc' : ((dictMerge ic.s_axis ic.m_axis).map
          (fun p => p.2.axi)).map AXIInterface.clock_domain
        = ((dictMerge ic'.s_axis ic'.m_axis).map
          (fun p => p.2.axi)).map AXIInterface.clock_domain := by
      rw [List.map_map, List.map_map]
      exact hc
    have ha' : ((dictMerge ic.s_axis ic.m_axis).map
          (fun p => p.2.axi)).map (fun a => a.aw_addr.width)
        = ((dictMerge ic'.s_axis ic'.m_axis).map
          (fun p => p.2.axi)).map (fun a => a.aw_addr.width) := by
      rw [List.map_map, List.map_map]
      exact ha
    have hd' : ((dictMerge ic.s_axis ic.m_axis).map
          (fun p => p.2.axi)).map (fun a => a.w_data.width)
        = ((dictMerge ic'.s_axis ic'.m_axis).map
          (fun p => p.2.axi)).map (fun a => a.w_data.width) := by
      rw [List.map_map, List.map_map]
      exact hd
    unfold get_check_parameters
    cases hL : (dictMerge ic.s_axis ic.m_axis).map (fun p => p.2.axi) with
    | nil =>
      cases hR : (dictMerge ic'.s_axis ic'.m_axis).map (fun p => p.2.axi) with
      | nil => rfl
      | cons aR tR =>
        rw [hL, hR] at hc'
        simp at hc'
    | cons aL tL =>
      cases hR : (dictMerge ic'.s_axis ic'.m_axis).map (fun p => p.2.axi) with
      | nil =>
        rw [hL, hR] at hc'
        simp at hc'
      | cons aR tR =>
        rw [hL, hR] at hc' ha' hd'
        simp only [List.map_cons, List.cons.injEq] at hc' ha' hd'
        obtain ⟨hch, hct⟩ := hc'
        obtain ⟨hah, hat⟩ := ha'
        obtain ⟨hdh, hdt⟩ := hd'
        dsimp only
        rw [show firstMismatch ((aL :: tL).map AXIInterface.clock_domain)
              aL.clock_domain
            = firstMismatch ((aR :: tR).map AXIInterface.clock_domain)
              aR.clock_domain from by
          rw [List.map_cons, List.map_cons, hch, hct]]
        cases firstMismatch ((aR :: tR).map AXIInterface.clock_domain)
            aR.clock_domain with
        | some i => rfl
        | none =>
          dsimp only
          rw [show firstMismatch ((aL :: tL).map (fun a => a.aw_addr.width))
                aL.aw_addr.width
              = firstMismatch ((aR :: tR).map (fun a => a.aw_addr.width))
                aR.aw_addr.width from by
            rw [List.map_cons, List.map_cons, hah, hat]]
          cases firstMismatch ((aR :: tR).map (fun a => a.aw_addr.width))
              aR.aw_addr.width with
          | some i => rfl
          | none =>
            dsimp only
            rw [show firstMismatch ((aL :: tL).map (fun a => a.w_data.width))
                  aL.w_data.width
                = firstMismatch ((aR :: tR).map (fun a => a.w_data.width))
                  aR.w_data.width from by
              rw [List.map_cons, List.map_cons, hdh, hdt]]
            cases firstMismatch ((aR :: tR).map (fun a => a.w_data.width))
                aR.w_data.width with
            | some i => rfl
            | none => rfl

/-- One-slave registry with an 8-bit ID. -/
def ic7 : AXIInterconnect := { s_axis := [("a", { axi := ifaceA })], m_axis := [] }

/-- Same registry with a 4-bit ID (all other widths identical). -/
def ic7x : AXIInterconnect := { s_axis := [("a", { axi := ifaceC })], m_axis := [] }

theorem C7_id_width_from_first_slave_witness :
    ({ clock_domain := "sys", address_width := 32, data_width := 32,
       id_width := 8 } : GlobalParameters).id_width = ifaceA.aw_id.width ∧
    errOf (get_check_parameters ic7 true).1
      = errOf (get_check_parameters ic7x false).1 :=
  ⟨C7_id_width_from_first_slave.1 ic7 true "a"
      ({ axi := ifaceA } : AXIInterconnectInterface) []
      { clock_domain := "sys", address_width := 32, data_width := 32,
        id_width := 8 }
      (by decide) rfl (by decide),
   C7_id_width_from_first_slave.2 ic7 ic7x true false
      (by decide) (by decide) (by decide)⟩

/-! ## Claim C9 -/

/-- C9: `format_m_params` applies no masking: when every parameter is
below `2 ^ width` the packed constant round-trips — field `i` (bits
`[width*(i+1)-1 : width*i]`) reads back exactly `params[i]` — and when a
parameter overflows its field, its excess high bits are OR-ed into the
next field: for `params = [16, 0]` and `width = 4`, field 1 reads back 1
instead of the 0 that was packed. -/
theorem C9_format_m_params_no_masking :
    (∀ (params : List Nat) (width : Nat),
      (∀ p ∈ params, p < 2 ^ width) →
      ∀ i (hi : i < params.length),
        fieldSlice (format_m_params params width).value width i
          = params.get ⟨i, hi⟩) ∧
    (fieldSlice (format_m_params [16, 0] 4).value 4 1 = 1 ∧
      [16, 0].getD 1 0 = 0 ∧ (1 : Nat) ≠ 0) := by
  constructor
  · intro params width h i hi
    rw [format_m_params_value_eq_packedValue params width h]
    exact packedValue_slice params width h i hi
  · exact ⟨by decide, by decide, by decide⟩

theorem C9_format_m_params_no_masking_witness :
    fieldSlice (format_m_params [3, 5] 4).value 4 0 = 3 ∧
    fieldSlice (format_m_params [3, 5] 4).value 4 1 = 5 :=
  ⟨C9_format_m_params_no_masking.1 [3, 5] 4 (by decide) 0 (by decide),
   C9_format_m_params_no_masking.1 [3, 5] 4 (by decide) 1 (by decide)⟩

/-! ## Claim C1 -/

/-- Two masters whose first origin (16) overflows the 4-bit address field. -/
def cex1 : List AXIInterconnectInterface :=
  [{ axi := ifaceA, origin := some 16, size := some 2 },
   { axi := ifaceA, origin := some 1, size := some 2 }]

/-- C1 counterexample: with sizes all positive but an origin not fitting
in `address_width` bits, the derived `base_addresses` value is NOT
`Σ origin[i] * 2 ^ (address_width * i)`: for origins `[16, 1]` at
`address_width = 4` the OR-fold yields 16, not 16 + 1·2⁴ = 32. -/
theorem C1_counterexample :
    derive_region_params cex1 4
      = Except.ok ({ value := 16, nbits := 8 },
                   { value := 1 + 2 ^ 32, nbits := 64 }) ∧
    (16 : Nat) ≠ 16 * 2 ^ (4 * 0) + 1 * 2 ^ (4 * 1) := by
  constructor
  · decide
  · decide

/-- C1 amended: for registered masters with all sizes positive — and every
origin fitting in `address_width` bits and every region width fitting in
32 bits, which the unmasked OR packing needs for the claimed Σ encoding —
derivation returns `base_addresses = Σ origin[i] * 2^(address_width*i)`
declared `N*address_width` bits wide and
`region_widths = Σ ceil(log2 size[i]) * 2^(32*i)` declared `N*32` bits
wide; and whenever some master's size is ≤ 0 it fails with the
invalid-region error instead. -/
theorem C1_region_parameter_derivation :
    (∀ (m_axis : List AXIInterconnectInterface) (aw : Nat)
        (origins : List Nat) (sizes : List Int),
      m_axis.map (fun a => a.origin) = origins.map some →
      m_axis.map (fun a => a.size) = sizes.map some →
      (∀ s ∈ sizes, 0 < s) →
      (∀ o ∈ origins, o < 2 ^ aw) →
      (∀ s ∈ sizes, clog2 s.toNat < 2 ^ 32) →
      derive_region_params m_axis aw =
        Except.ok
          ({ value := packedValue origins aw, nbits := m_axis.length * aw },
           { value := packedValue (sizes.map (fun s => clog2 s.toNat)) 32,
             nbits := m_axis.length * 32 })) ∧
    (∀ (m_axis : List AXIInterconnectInterface) (aw : Nat),
      (∀ a ∈ m_axis, ∃ s, a.size = some s) →
      (∃ a ∈ m_axis, ∃ s, a.size = some s ∧ s ≤ 0) →
      derive_region_params m_axis aw = Except.error IcError.invalidRegion) := by
  constructor
  · intro m_axis aw origins sizes horig hsz hpos hofit hwfit
    have hlen_o : m_axis.length = origins.length := by
      have := congrArg List.length horig
      simpa using this
    have hlen_s : m_axis.length = sizes.length := by
      have := congrArg List.length hsz
      simpa using this
    unfold derive_region_params
    rw [m_widths_of_ok m_axis sizes hsz hpos, m_origins_of_ok m_axis origins horig]
    dsimp only
    have hvo : (format_m_params origins aw).value = packedValue origins aw :=
      format_m_params_value_eq_packedValue origins aw hofit
    have hvw : (format_m_params (sizes.map (fun s => clog2 s.toNat)) 32).value
        = packedValue (sizes.map (fun s => clog2 s.toNat)) 32 := by
      refine format_m_params_value_eq_packedValue _ 32 ?_
      intro w hw
      obtain ⟨s, hsmem, rfl⟩ := List.mem_map.mp hw
      exact hwfit s hsmem
    have hconst1 : format_m_params origins aw
        = { value := packedValue origins aw, nbits := m_axis.length * aw } := by
      unfold format_m_params
      rw [Constant.mk.injEq]
      exact ⟨hvo, by rw [hlen_o]⟩
    have hconst2 : format_m_params (sizes.map (fun s => clog2 s.toNat)) 32
        = { value := packedValue (sizes.map (fun s => clog2 s.toNat)) 32,
            nbits := m_axis.length * 32 } := by
      unfold format_m_params
      rw [Constant.mk.injEq]
      refine ⟨hvw, ?_⟩
      rw [List.length_map, hlen_s]
    rw [hconst1, hconst2]
  · intro m_axis aw hsome hbad
    unfold derive_region_params
    rw [m_widths_of_err m_axis hsome hbad]

/-- Two small masters: origins 3 and 5, sizes 2 and 4 (widths 1 and 2). -/
def wit1 : List AXIInterconnectInterface :=
  [{ axi := ifaceA, origin := some 3, size := some 2 },
   { axi := ifaceA, origin := some 5, size := some 4 }]

theorem C1_region_parameter_derivation_witness :
    derive_region_params wit1 4
      = Except.ok
          ({ value := packedValue [3, 5] 4, nbits := wit1.length * 4 },
           { value := packedValue (([2, 4] : List Int).map (fun s => clog2 s.toNat)) 32,
             nbits := wit1.length * 32 }) ∧
    packedValue [3, 5] 4 = 83 ∧
    derive_region_params [{ axi := ifaceA, origin := some 1, size := some 0 }] 32
      = Except.error IcError.invalidRegion :=
  ⟨C1_region_parameter_derivation.1 wit1 4 [3, 5] ([2, 4] : List Int) rfl rfl
      (by decide) (by decide) (by decide),
   by decide,
   C1_region_parameter_derivation.2
      [{ axi := ifaceA, origin := some 1, size := some 0 }] 32
      (by
        intro a ha
        rw [List.mem_singleton.mp ha]
        exact ⟨0, rfl⟩)
      ⟨{ axi := ifaceA, origin := some 1, size := some 0 },
        List.mem_singleton.mpr rfl, 0, rfl, le_refl 0⟩⟩

/-! ## Claim C6 -/

/-- C6: packing one channel field of uniform width `W` across the `N`
ports of a group (`Cat` over the group's interfaces in registration
order) produces a vector of width exactly `N * W`, with port 0 in the
low-order bits `[W-1:0]` and the `i`-th port's field readable at bits
`[W*(i+1)-1 : W*i]` — the field-to-port mapping is positional in list
order, and `packField` is a pure function of its arguments, so repeated
packing calls on the same group yield the identical vector. -/
theorem C6_pack_width_and_position :
    ∀ (axis : List AXIInterface) (field : AXIInterface → Signal) (W : Nat),
      (∀ a ∈ axis, (field a).width = W) →
      (∀ a ∈ axis, (field a).value < 2 ^ W) →
      (packField axis field).width = axis.length * W ∧
      ∀ i (hi : i < axis.length),
        fieldSlice (packField axis field).value W i
          = (field (axis.get ⟨i, hi⟩)).value := by
  intro axis field W hw hv
  have hw' : ∀ s ∈ axis.map field, s.width = W := by
    intro s hs
    obtain ⟨a, ha, rfl⟩ := List.mem_map.mp hs
    exact hw a ha
  constructor
  · unfold packField
    rw [Cat_width_uniform (axis.map field) W hw', List.length_map]
  · intro i hi
    unfold packField
    have hi' : i < (axis.map field).length := by
      rw [List.length_map]
      exact hi
    rw [Cat_slice_uniform (axis.map field) W hw' i hi', List.get_map]
    exact Nat.mod_eq_of_lt (hv _ (List.get_mem axis _ _))

/-- Interface with a 4-bit ID of value 5. -/
def ifaceD0 : AXIInterface :=
  { clock_domain := "sys", aw_addr := sigW 32, w_data := sigW 32,
    aw_id := { width := 4, value := 5 } }

/-- Interface with a 4-bit ID of value 9. -/
def ifaceD1 : AXIInterface :=
  { clock_domain := "sys", aw_addr := sigW 32, w_data := sigW 32,
    aw_id := { width := 4, value := 9 } }

theorem C6_pack_width_and_position_witness :
    (packField [ifaceD0, ifaceD1] AXIInterface.aw_id).width = 2 * 4 ∧
    fieldSlice (packField [ifaceD0, ifaceD1] AXIInterface.aw_id).value 4 0 = 5 ∧
    fieldSlice (packField [ifaceD0, ifaceD1] AXIInterface.aw_id).value 4 1 = 9 :=
  ⟨(C6_pack_width_and_position [ifaceD0, ifaceD1] AXIInterface.aw_id 4
      (by decide) (by decide)).1,
   (C6_pack_width_and_position [ifaceD0, ifaceD1] AXIInterface.aw_id 4
      (by decide) (by decide)).2 0 (by decide),
   (C6_pack_width_and_position [ifaceD0, ifaceD1] AXIInterface.aw_id 4
      (by decide) (by decide)).2 1 (by decide)⟩
